import Mathlib

/-!
Shallow embedding of `src/api_server.py`, a minimal in-memory todo-list API
server with injected random failures.

Python dicts are modelled as insertion-ordered association lists with unique
keys.  Item records (`{'id': ..., 'summary': ..., ...}`) are dicts from
string field names to values; the store's collection (`self.items`) is a
dict from integer ids to records.  Python floats used for the failure rate
and the random draw are modelled as rationals.  Exceptions (`KeyError`,
`AssertionError`, the decorator's `RuntimeError`) are modelled as an error
type returned through `Except`.  Lock usage (`id_lock`, `write_lock`) is
recorded as an explicit trace of acquire/release events so that the locking
discipline of each operation is visible in the model.
-/

deriving instance DecidableEq for Except

namespace TodoApi

/-- A Python value stored in an item record: the id is an integer, the
caller-supplied fields are strings. -/
inductive Value where
  | int (n : Int) : Value
  | str (s : String) : Value
deriving DecidableEq

/-- A Python dict with string keys, as an insertion-ordered association
list: item records such as `{'id': 1, 'summary': 'buy milk'}`. -/
abbrev PyDict := List (String × Value)

/-- `d[k]` as an `Option`: the first binding of `k`, if any. -/
def dictGet (d : PyDict) (k : String) : Option Value :=
  d.lookup k

/-- `d[k] = v` on a dict: replace the value of an existing key in place
(keeping insertion order, as Python does), otherwise append the new
binding. -/
def dictSet (d : PyDict) (k : String) (v : Value) : PyDict :=
  if d.any (fun kv => kv.1 == k) then
    d.map (fun kv => if kv.1 == k then (k, v) else kv)
  else
    d ++ [(k, v)]

/-- `d.update(**kwargs)`: fold `dictSet` over the keyword arguments in
order. -/
def dictUpdate (d : PyDict) (kwargs : PyDict) : PyDict :=
  kwargs.foldl (fun acc kv => dictSet acc kv.1 kv.2) d

/-- The exceptions the server's code can raise: `KeyError` (missing dict
key — the store's NotFound), `AssertionError` (the duplicate-id assert in
`add_item` and the failure-rate assert in `get_args`), and the
`RuntimeError('Unreliable API Strikes Again!')` raised by the `unreliable`
decorator (the spec's SimulatedFailure). -/
inductive Err where
  | keyError : Err
  | assertionError : Err
  | simulatedFailure : Err
deriving DecidableEq

/-- Lock acquire/release events, recording uses of `self.id_lock` and
`self.write_lock`. -/
inductive LockEv where
  | acqId : LockEv
  | relId : LockEv
  | acqWrite : LockEv
  | relWrite : LockEv
deriving DecidableEq

/-- The state of `ItemStore`: `self.items` (dict from id to record, in
insertion order) and `self.current_id`. -/
structure ItemStore where
  items : List (Nat × PyDict)
  current_id : Nat
deriving DecidableEq

/-- `ItemStore.__init__`: empty dict, `current_id = 0`. -/
def ItemStore.init : ItemStore := ⟨[], 0⟩

/-- The outcome of one store or route operation: the returned value or
raised exception, the store state afterwards, and the trace of lock events
the operation performed. -/
structure OpOut (α : Type) where
  res : Except Err α
  st : ItemStore
  locks : List LockEv

/-- `ItemStore.new_id`: under `id_lock`, increment `current_id` and return
it. -/
def ItemStore.new_id (s : ItemStore) : Nat × ItemStore × List LockEv :=
  (s.current_id + 1, ⟨s.items, s.current_id + 1⟩, [.acqId, .relId])

/-- `ItemStore.add_item(**kwargs)`: allocate an id via `new_id`, build
`info = {'id': item_id}` then `info.update(**kwargs)`, and under
`write_lock` assert the id is not already a key and insert `info` under
it.  If the assert fails the `finally` still releases the lock and the
`AssertionError` propagates with the store's dict unchanged (but
`current_id` already incremented). -/
def ItemStore.add_item (s : ItemStore) (kwargs : PyDict) : OpOut PyDict :=
  match s.new_id with
  | (item_id, s1, tr) =>
    let info := dictUpdate [("id", Value.int item_id)] kwargs
    if (s1.items.lookup item_id).isSome then
      ⟨.error .assertionError, s1, tr ++ [.acqWrite, .relWrite]⟩
    else
      ⟨.ok info, ⟨s1.items ++ [(item_id, info)], s1.current_id⟩,
        tr ++ [.acqWrite, .relWrite]⟩

/-- `ItemStore.delete_item(item_id)`: `del self.items[item_id]` — remove
the binding, raising `KeyError` if absent.  No lock is taken. -/
def ItemStore.delete_item (s : ItemStore) (item_id : Nat) : OpOut Unit :=
  if (s.items.lookup item_id).isSome then
    ⟨.ok (), ⟨s.items.eraseP (fun kv => kv.1 == item_id), s.current_id⟩, []⟩
  else
    ⟨.error .keyError, s, []⟩

/-- `ItemStore.find_item(item_id)`: `self.items[item_id]` — return the
record, raising `KeyError` if absent.  No lock is taken, no mutation. -/
def ItemStore.find_item (s : ItemStore) (item_id : Nat) : OpOut PyDict :=
  match s.items.lookup item_id with
  | some r => ⟨.ok r, s, []⟩
  | none => ⟨.error .keyError, s, []⟩

/-- The list comprehension in `all_items`: for each record (in dict value
order), build `{'id': item['id'], 'summary': item['summary']}`, raising
`KeyError` if a record lacks either field. -/
def allItemsGo : List (Nat × PyDict) → Except Err (List PyDict)
  | [] => .ok []
  | kv :: rest =>
    match dictGet kv.2 "id" with
    | none => .error .keyError
    | some i =>
      match dictGet kv.2 "summary" with
      | none => .error .keyError
      | some sm =>
        match allItemsGo rest with
        | .error e => .error e
        | .ok l => .ok ([("id", i), ("summary", sm)] :: l)

/-- `ItemStore.all_items()`: the projection `[{'id': item['id'],
'summary': item['summary']} for item in self.items.values()]`.  No lock is
taken, no mutation. -/
def ItemStore.all_items (s : ItemStore) : OpOut (List PyDict) :=
  ⟨allItemsGo s.items, s, []⟩

/-- The `unreliable` decorator: draw `r = random.random()` (uniform in
`[0,1)`); if `r < failure_rate` raise `RuntimeError` (SimulatedFailure)
without calling the wrapped function, else call it and pass its outcome
through.  `p` is the configured failure rate, `r` the per-call draw. -/
def unreliable {α : Type} (p r : ℚ) (op : ItemStore → OpOut α) (s : ItemStore) :
    OpOut α :=
  if r < p then ⟨.error .simulatedFailure, s, []⟩ else op s

/-- The HTTP boundary's translation of a handler outcome to a status code.
Handlers that catch `KeyError` and call `flask.abort(404)`
(`describe_item`, the delete route) pass `catchKeyError = true`; any
exception a handler does not catch is surfaced by Flask, the external
dispatch layer, as a 500 Internal Server Error. -/
def http_status {α : Type} (catchKeyError : Bool) (r : Except Err α) : Nat :=
  match r with
  | .ok _ => 200
  | .error .keyError => if catchKeyError then 404 else 500
  | .error _ => 500

/-- The `create_item` route handler (`POST /items`), wrapped by
`unreliable`: read `params['summary']` and then `params['description']`
from the parsed JSON body (each raising `KeyError` if missing — the
handler has no try/except) and call `store.add_item` with those two
keyword arguments. -/
def create_item (p r : ℚ) (params : PyDict) (s : ItemStore) : OpOut PyDict :=
  unreliable p r
    (fun st =>
      match dictGet params "summary" with
      | none => ⟨.error .keyError, st, []⟩
      | some sm =>
        match dictGet params "description" with
        | none => ⟨.error .keyError, st, []⟩
        | some ds => st.add_item [("summary", sm), ("description", ds)])
    s

/-- The startup validation in `get_args`:
`assert (args.failure_rate >= 0.0) and (args.failure_rate <= 1.0)`.
Returns the failure rate if the assertion passes, raises `AssertionError`
(fatal: the process does not start) otherwise. -/
def get_args (failure_rate : ℚ) : Except Err ℚ :=
  if 0 ≤ failure_rate ∧ failure_rate ≤ 1 then .ok failure_rate
  else .error .assertionError

/-- Sequential execution of successive `add_item` calls: run one call per
element of `kwargsList`, threading the store state, and collect each
call's outcome. -/
def addSeq (s : ItemStore) : List PyDict → List (Except Err PyDict) × ItemStore
  | [] => ([], s)
  | kwargs :: rest =>
    let o := s.add_item kwargs
    let out := addSeq o.st rest
    (o.res :: out.1, out.2)

/-- Concurrent `new_id` callers: thread `t ∈ pending` runs its whole
critical section (increment `current_id`, read it) atomically when it
acquires `id_lock`; a schedule lists the order in which threads win the
lock.  Returns the final counter and each completing thread's assigned
id, in completion order. -/
def runNewIds (c : Nat) (pending : List Nat) : List Nat → Nat × List (Nat × Nat)
  | [] => (c, [])
  | t :: ts =>
    if t ∈ pending then
      let out := runNewIds (c + 1) (pending.erase t) ts
      (out.1, (t, c + 1) :: out.2)
    else runNewIds c pending ts

/-- Store states whose records are well formed: every record's `'id'`
field is the integer key it is stored under, every record has a
`'summary'` field, keys are at most `current_id`, and keys are distinct
(a Python dict cannot hold duplicate keys). -/
def WFStore (s : ItemStore) : Prop :=
  (∀ kv ∈ s.items, dictGet kv.2 "id" = some (Value.int kv.1)) ∧
  (∀ kv ∈ s.items, (dictGet kv.2 "summary").isSome = true) ∧
  (∀ kv ∈ s.items, kv.1 ≤ s.current_id) ∧
  (s.items.map Prod.fst).Nodup

instance (s : ItemStore) : Decidable (WFStore s) := by
  unfold WFStore
  infer_instance

/-- Store states reachable from a fresh `ItemStore` by the public
operations invoked as the HTTP layer invokes them: `add_item` with the
two caller-supplied fields `summary` and `description`, and
`delete_item` with any id.  `find_item` and `all_items` do not change the
state. -/
inductive Reach : ItemStore → Prop where
  | init : Reach ItemStore.init
  | add (s : ItemStore) (sm ds : String) (h : Reach s) :
      Reach (s.add_item [("summary", Value.str sm), ("description", Value.str ds)]).st
  | del (s : ItemStore) (item_id : Nat) (h : Reach s) :
      Reach (s.delete_item item_id).st

/-! ### Helper lemmas -/

lemma lookup_eq_none_of_not_mem_keys {l : List (Nat × PyDict)} {k : Nat}
    (h : k ∉ l.map Prod.fst) : l.lookup k = none := by
  rw [List.lookup_eq_none_iff]
  intro p hp
  have hm : p.1 ∈ l.map Prod.fst := List.mem_map_of_mem _ hp
  exact bne_iff_ne.mpr (fun hk => h (by rw [hk]; exact hm))

lemma not_succ_mem_range'_one {c : Nat} : c + 1 ∉ List.range' 1 c := by
  intro hm
  obtain ⟨i, hi, he⟩ := List.mem_range'.1 hm
  omega

/-- From a store whose key list is exactly `[1, ..., current_id]`, a run of
successive `add_item` calls keeps that shape, advances `current_id` by one
per call, and every call returns `ok`. -/
lemma addSeq_inv (ks : List PyDict) (s : ItemStore)
    (h : s.items.map Prod.fst = List.range' 1 s.current_id) :
    (addSeq s ks).2.items.map Prod.fst =
      List.range' 1 (s.current_id + ks.length) ∧
    (addSeq s ks).2.current_id = s.current_id + ks.length ∧
    ∀ r ∈ (addSeq s ks).1, ∃ info, r = .ok info := by
  induction ks generalizing s with
  | nil => simpa [addSeq] using h
  | cons kw rest ih =>
    have hfresh : s.items.lookup (s.current_id + 1) = none := by
      apply lookup_eq_none_of_not_mem_keys
      rw [h]
      exact not_succ_mem_range'_one
    have hstep : s.add_item kw =
        ⟨.ok (dictUpdate [("id", Value.int (s.current_id + 1))] kw),
          ⟨s.items ++ [(s.current_id + 1,
            dictUpdate [("id", Value.int (s.current_id + 1))] kw)],
            s.current_id + 1⟩,
          [.acqId, .relId, .acqWrite, .relWrite]⟩ := by
      simp [ItemStore.add_item, ItemStore.new_id, hfresh]
    have hkeys : (s.add_item kw).st.items.map Prod.fst =
        List.range' 1 ((s.add_item kw).st.current_id) := by
      rw [hstep]
      simp only [List.map_append, h, List.map_cons, List.map_nil]
      have := @List.range'_concat 1 1 s.current_id
      rw [this]
      simp [Nat.add_comm]
    obtain ⟨h1, h2, h3⟩ := ih (s.add_item kw).st hkeys
    have hcur : (s.add_item kw).st.current_id = s.current_id + 1 := by
      rw [hstep]
    refine ⟨?_, ?_, ?_⟩
    · show (addSeq (s.add_item kw).st rest).2.items.map Prod.fst = _
      rw [h1, hcur]
      congr 1
      simp [List.length_cons]
      omega
    · show (addSeq (s.add_item kw).st rest).2.current_id = _
      rw [h2, hcur]
      simp [List.length_cons]
      omega
    · intro r hr
      simp only [addSeq, List.mem_cons] at hr
      rcases hr with hr | hr
      · subst hr
        rw [hstep]
        exact ⟨_, rfl⟩
      · exact h3 r hr

/-! ### Claim theorems -/

/-- C1: for every sequence of `n` successive `add_item` calls on a fresh
`ItemStore`, every call succeeds, the assigned ids (the keys under which
the records are stored, in call order) are exactly `1, 2, ..., n` —
pairwise distinct, never reused, strictly increasing — and before the
`i`-th call `new_id` would return `i + 1`, which is not yet used. -/
theorem spec_c1 (ks : List PyDict) :
    (∀ r ∈ (addSeq ItemStore.init ks).1, ∃ info, r = .ok info) ∧
    (addSeq ItemStore.init ks).2.items.map Prod.fst =
      List.range' 1 ks.length ∧
    (∀ i, i < ks.length →
      (addSeq ItemStore.init (ks.take i)).2.new_id.1 = i + 1 ∧
      (addSeq ItemStore.init (ks.take i)).2.items.map Prod.fst =
        List.range' 1 i ∧
      (i + 1) ∉ (addSeq ItemStore.init (ks.take i)).2.items.map Prod.fst) := by
  have hinit : ItemStore.init.items.map Prod.fst =
      List.range' 1 ItemStore.init.current_id := rfl
  obtain ⟨h1, h2, h3⟩ := addSeq_inv ks ItemStore.init hinit
  refine ⟨h3, by simpa [ItemStore.init] using h1, ?_⟩
  intro i hi
  obtain ⟨g1, g2, g3⟩ := addSeq_inv (ks.take i) ItemStore.init hinit
  have hlen : (ks.take i).length = i := by
    rw [List.length_take]
    omega
  have hkeys : (addSeq ItemStore.init (ks.take i)).2.items.map Prod.fst =
      List.range' 1 i := by
    rw [g1, hlen]
    simp [ItemStore.init]
  have hcur : (addSeq ItemStore.init (ks.take i)).2.current_id = i := by
    rw [g2, hlen]
    simp [ItemStore.init]
  refine ⟨?_, hkeys, ?_⟩
  · simp [ItemStore.new_id, hcur]
  · rw [hkeys]
    exact not_succ_mem_range'_one

/-- Witness for C1 at the concrete two-call sequence of §8's example
scenario. -/
theorem spec_c1_witness :
    (addSeq ItemStore.init
        [[("summary", Value.str "buy milk"), ("description", Value.str "2%")],
         [("summary", Value.str "walk dog")]]).2.items.map Prod.fst =
      List.range' 1 2 ∧
    (addSeq ItemStore.init
        ([[("summary", Value.str "buy milk"), ("description", Value.str "2%")],
          [("summary", Value.str "walk dog")]].take 1)).2.new_id.1 = 2 :=
  ⟨(spec_c1 _).2.1,
   ((spec_c1 [[("summary", Value.str "buy milk"),
        ("description", Value.str "2%")],
       [("summary", Value.str "walk dog")]]).2.2 1 (by decide)).1⟩

/-- Evaluation of `add_item` with the two HTTP-supplied fields on a store
whose next id is fresh. -/
lemma add_item_fields_eq (s : ItemStore) (sm ds : String)
    (h : s.items.lookup (s.current_id + 1) = none) :
    s.add_item [("summary", Value.str sm), ("description", Value.str ds)] =
      ⟨.ok [("id", Value.int (s.current_id + 1)), ("summary", Value.str sm),
          ("description", Value.str ds)],
        ⟨s.items ++ [(s.current_id + 1,
          [("id", Value.int (s.current_id + 1)), ("summary", Value.str sm),
            ("description", Value.str ds)])], s.current_id + 1⟩,
        [.acqId, .relId, .acqWrite, .relWrite]⟩ := by
  have hinfo : dictUpdate [("id", Value.int (s.current_id + 1))]
      [("summary", Value.str sm), ("description", Value.str ds)] =
      [("id", Value.int (s.current_id + 1)), ("summary", Value.str sm),
        ("description", Value.str ds)] := rfl
  simp [ItemStore.add_item, ItemStore.new_id, h, hinfo]

/-- C2: on any store state in which the next id is not already a key (as
in every state the server itself produces), `add_item` with the
caller-supplied fields `summary` and `description` returns exactly the
stored record — the fresh id merged with those two fields — and
`find_item` on that id immediately afterwards succeeds and returns a
record whose `summary` and `description` match the supplied values. -/
theorem spec_c2 (s : ItemStore) (sm ds : String)
    (h : s.items.lookup (s.current_id + 1) = none) :
    (s.add_item [("summary", Value.str sm), ("description", Value.str ds)]).res =
      .ok [("id", Value.int (s.current_id + 1)), ("summary", Value.str sm),
        ("description", Value.str ds)] ∧
    ((s.add_item [("summary", Value.str sm),
        ("description", Value.str ds)]).st.find_item (s.current_id + 1)).res =
      .ok [("id", Value.int (s.current_id + 1)), ("summary", Value.str sm),
        ("description", Value.str ds)] ∧
    dictGet [("id", Value.int (s.current_id + 1)), ("summary", Value.str sm),
        ("description", Value.str ds)] "summary" = some (Value.str sm) ∧
    dictGet [("id", Value.int (s.current_id + 1)), ("summary", Value.str sm),
        ("description", Value.str ds)] "description" = some (Value.str ds) := by
  have hstep := add_item_fields_eq s sm ds h
  refine ⟨by rw [hstep], ?_, rfl, rfl⟩
  rw [hstep]
  simp [ItemStore.find_item, List.lookup_append, h]

/-- Witness for C2 on the fresh store with §8's example fields. -/
theorem spec_c2_witness :
    (ItemStore.init.add_item [("summary", Value.str "buy milk"),
        ("description", Value.str "2%")]).res =
      .ok [("id", Value.int 1), ("summary", Value.str "buy milk"),
        ("description", Value.str "2%")] ∧
    ((ItemStore.init.add_item [("summary", Value.str "buy milk"),
        ("description", Value.str "2%")]).st.find_item 1).res =
      .ok [("id", Value.int 1), ("summary", Value.str "buy milk"),
        ("description", Value.str "2%")] :=
  ⟨(spec_c2 ItemStore.init "buy milk" "2%" rfl).1,
   (spec_c2 ItemStore.init "buy milk" "2%" rfl).2.1⟩

/-- C3: for a configured failure probability `p ∈ [0,1]` and a per-call
draw `r ∈ [0,1)`: if `r < p` the decorated call fails with
SimulatedFailure, leaves the store unchanged, takes no lock, and the
result does not depend on the wrapped operation (it is never invoked);
otherwise the wrapped operation runs and its outcome passes through
unchanged.  In particular with `p = 0` every decorated call runs the
wrapped operation, and with `p = 1` every decorated call fails with
SimulatedFailure without invoking it. -/
theorem spec_c3 {α : Type} (p r : ℚ) (op op' : ItemStore → OpOut α)
    (s : ItemStore) (hp : 0 ≤ p ∧ p ≤ 1) (hr : 0 ≤ r ∧ r < 1) :
    (r < p → unreliable p r op s = ⟨.error .simulatedFailure, s, []⟩ ∧
      unreliable p r op s = unreliable p r op' s) ∧
    (¬ r < p → unreliable p r op s = op s) ∧
    (p = 0 → unreliable p r op s = op s) ∧
    (p = 1 → unreliable p r op s = ⟨.error .simulatedFailure, s, []⟩) := by
  refine ⟨fun h => ?_, fun h => ?_, fun h => ?_, fun h => ?_⟩
  · constructor <;> simp [unreliable, h]
  · simp [unreliable, h]
  · subst h
    have hnot : ¬ r < 0 := not_lt.mpr hr.1
    simp [unreliable, hnot]
  · subst h
    simp [unreliable, hr.2]

/-- Witness for C3: with `p = 1`, `r = 0`, a concrete wrapped operation is
never invoked and the call fails with SimulatedFailure. -/
theorem spec_c3_witness :
    unreliable 1 0 (fun st => (⟨.ok 7, st, []⟩ : OpOut Nat))
      ItemStore.init = ⟨.error .simulatedFailure, ItemStore.init, []⟩ :=
  (spec_c3 1 0 (fun st => (⟨.ok 7, st, []⟩ : OpOut Nat))
    (fun st => ⟨.error .keyError, st, []⟩) ItemStore.init
    ⟨by norm_num, by norm_num⟩ ⟨by norm_num, by norm_num⟩).2.2.2 rfl

lemma lookup_eraseP_self {l : List (Nat × PyDict)} {k : Nat}
    (h : (l.map Prod.fst).Nodup) :
    (l.eraseP (fun kv => kv.1 == k)).lookup k = none := by
  induction l with
  | nil => rfl
  | cons hd tl ih =>
    rw [List.map_cons] at h
    rcases List.nodup_cons.1 h with ⟨hhd, htl⟩
    by_cases hk : hd.1 = k
    · rw [List.eraseP_cons_of_pos (by simp [hk])]
      exact lookup_eq_none_of_not_mem_keys (by rw [← hk]; exact hhd)
    · rw [List.eraseP_cons_of_neg (by simp [hk])]
      rcases hd with ⟨a, b⟩
      rw [List.lookup_cons]
      have : (k == a) = false := by
        simp only [beq_eq_false_iff_ne, ne_eq]
        exact fun he => hk (by simp [he])
      rw [this]
      exact ih htl

/-- C4: on any store state (with the distinct keys every Python dict has),
`delete_item id` raises `KeyError` — surfaced as NotFound — exactly when
`id` is absent, never-issued and already-deleted ids included; a failed
delete leaves the store unchanged; and after a successful delete,
`find_item id` raises `KeyError`. -/
theorem spec_c4 (s : ItemStore) (item_id : Nat)
    (hnd : (s.items.map Prod.fst).Nodup) :
    ((s.delete_item item_id).res = .error .keyError ↔
      s.items.lookup item_id = none) ∧
    ((s.delete_item item_id).res = .error .keyError →
      (s.delete_item item_id).st = s) ∧
    ((s.delete_item item_id).res = .ok () →
      ((s.delete_item item_id).st.find_item item_id).res =
        .error .keyError) := by
  by_cases hm : (s.items.lookup item_id).isSome
  · have hres : s.delete_item item_id =
        ⟨.ok (), ⟨s.items.eraseP (fun kv => kv.1 == item_id), s.current_id⟩,
          []⟩ := by
      simp [ItemStore.delete_item, hm]
    refine ⟨?_, ?_, fun _ => ?_⟩
    · rw [hres]
      constructor
      · intro hcontra
        simp at hcontra
      · intro hnone
        rw [hnone] at hm
        simp at hm
    · intro habs
      rw [hres] at habs
      simp at habs
    · rw [hres]
      simp [ItemStore.find_item, lookup_eraseP_self hnd]
  · have hnone : s.items.lookup item_id = none := by
      cases ho : s.items.lookup item_id with
      | none => rfl
      | some v =>
        rw [ho] at hm
        simp at hm
    have hres : s.delete_item item_id = ⟨.error .keyError, s, []⟩ := by
      simp [ItemStore.delete_item, hm]
    refine ⟨by rw [hres]; simp [hnone], fun _ => by rw [hres], fun hok => ?_⟩
    rw [hres] at hok
    simp at hok

/-- Witness for C4: deleting the only item of a one-item store succeeds
and the subsequent find raises `KeyError`. -/
theorem spec_c4_witness :
    (((⟨[(1, [("id", Value.int 1), ("summary", Value.str "a")])], 1⟩ :
        ItemStore).delete_item 1).st.find_item 1).res = .error .keyError :=
  (spec_c4 ⟨[(1, [("id", Value.int 1), ("summary", Value.str "a")])], 1⟩ 1
    (by decide)).2.2 (by decide)

lemma allItemsGo_wf {l : List (Nat × PyDict)}
    (hid : ∀ kv ∈ l, dictGet kv.2 "id" = some (Value.int kv.1))
    (hsm : ∀ kv ∈ l, (dictGet kv.2 "summary").isSome = true) :
    allItemsGo l = .ok (l.map (fun kv =>
      [("id", Value.int kv.1),
        ("summary", (dictGet kv.2 "summary").getD (Value.str ""))])) := by
  induction l with
  | nil => rfl
  | cons kv rest ih =>
    have h1 := hid kv (by simp)
    obtain ⟨v, hv⟩ := Option.isSome_iff_exists.1 (hsm kv (by simp))
    have h2 := ih (fun x hx => hid x (by simp [hx]))
      (fun x hx => hsm x (by simp [hx]))
    simp [allItemsGo, h1, hv, h2]

/-- C5: on any well-formed store state, `all_items` succeeds and returns
one entry per live item and nothing else: the entries' ids are exactly
the store's keys (none absent, none omitted), each entry holds exactly
the fields `id` and `summary`, and each entry's `summary` is the
corresponding record's `summary` (the `description` field is dropped). -/
theorem spec_c5 (s : ItemStore) (h : WFStore s) :
    s.all_items.res = .ok (s.items.map (fun kv =>
      [("id", Value.int kv.1),
        ("summary", (dictGet kv.2 "summary").getD (Value.str ""))])) ∧
    (s.items.map (fun kv =>
        [("id", Value.int kv.1),
          ("summary", (dictGet kv.2 "summary").getD (Value.str ""))])).map
      (fun e => dictGet e "id") =
      s.items.map (fun kv => some (Value.int kv.1)) ∧
    (∀ e ∈ s.items.map (fun kv =>
        [("id", Value.int kv.1),
          ("summary", (dictGet kv.2 "summary").getD (Value.str ""))]),
      e.map Prod.fst = ["id", "summary"]) ∧
    (s.items.map (fun kv =>
        [("id", Value.int kv.1),
          ("summary", (dictGet kv.2 "summary").getD (Value.str ""))])).map
      (fun e => dictGet e "summary") =
      s.items.map (fun kv => dictGet kv.2 "summary") := by
  obtain ⟨hid, hsm, _, _⟩ := h
  refine ⟨?_, ?_, ?_, ?_⟩
  · show allItemsGo s.items = _
    exact allItemsGo_wf hid hsm
  · rw [List.map_map]
    rfl
  · intro e he
    obtain ⟨kv, _, rfl⟩ := List.mem_map.1 he
    rfl
  · rw [List.map_map]
    refine List.map_congr_left ?_
    intro kv hkv
    obtain ⟨v, hv⟩ := Option.isSome_iff_exists.1 (hsm kv hkv)
    have hv' : List.lookup "summary" kv.2 = some v := hv
    simp [Function.comp, dictGet, hv']
    rfl

/-- Witness for C5 on a concrete two-item well-formed store. -/
theorem spec_c5_witness :
    (ItemStore.all_items
      ⟨[(1, [("id", Value.int 1), ("summary", Value.str "buy milk"),
          ("description", Value.str "2%")]),
        (2, [("id", Value.int 2), ("summary", Value.str "walk dog")])],
        2⟩).res =
      .ok [[("id", Value.int 1), ("summary", Value.str "buy milk")],
        [("id", Value.int 2), ("summary", Value.str "walk dog")]] :=
  (spec_c5
    ⟨[(1, [("id", Value.int 1), ("summary", Value.str "buy milk"),
        ("description", Value.str "2%")]),
      (2, [("id", Value.int 2), ("summary", Value.str "walk dog")])],
      2⟩ (by decide)).1

/-- Every state reachable by the server's operation sequence is well
formed. -/
lemma reach_wf {s : ItemStore} (h : Reach s) : WFStore s := by
  induction h with
  | init => exact ⟨by simp [ItemStore.init], by simp [ItemStore.init],
      by simp [ItemStore.init], by simp [ItemStore.init]⟩
  | add s sm ds h ih =>
    obtain ⟨hid, hsm, hle, hnd⟩ := ih
    have hmem : s.current_id + 1 ∉ s.items.map Prod.fst := by
      intro hm
      obtain ⟨kv, hkv, he⟩ := List.mem_map.1 hm
      have := hle kv hkv
      omega
    have hfresh : s.items.lookup (s.current_id + 1) = none :=
      lookup_eq_none_of_not_mem_keys hmem
    rw [add_item_fields_eq s sm ds hfresh]
    dsimp only
    refine ⟨?_, ?_, ?_, ?_⟩
    · intro kv hkv
      rcases List.mem_append.1 hkv with hkv | hkv
      · exact hid kv hkv
      · simp only [List.mem_singleton] at hkv
        subst hkv
        rfl
    · intro kv hkv
      rcases List.mem_append.1 hkv with hkv | hkv
      · exact hsm kv hkv
      · simp only [List.mem_singleton] at hkv
        subst hkv
        rfl
    · intro kv hkv
      rcases List.mem_append.1 hkv with hkv | hkv
      · have := hle kv hkv
        show kv.1 ≤ s.current_id + 1
        omega
      · simp only [List.mem_singleton] at hkv
        subst hkv
        simp
    · rw [List.map_append]
      simp only [List.map_cons, List.map_nil]
      rw [List.nodup_append]
      exact ⟨hnd, List.nodup_singleton _,
        by simpa [List.disjoint_singleton] using hmem⟩
  | del s item_id h ih =>
    obtain ⟨hid, hsm, hle, hnd⟩ := ih
    by_cases hm : (s.items.lookup item_id).isSome
    · have hres : (s.delete_item item_id).st =
          ⟨s.items.eraseP (fun kv => kv.1 == item_id), s.current_id⟩ := by
        simp [ItemStore.delete_item, hm]
      rw [hres]
      have hsub : List.Sublist
          (s.items.eraseP (fun kv => kv.1 == item_id)) s.items :=
        List.eraseP_sublist _
      refine ⟨fun kv hkv => hid kv (hsub.mem hkv),
        fun kv hkv => hsm kv (hsub.mem hkv),
        fun kv hkv => hle kv (hsub.mem hkv),
        List.Nodup.sublist (hsub.map Prod.fst) hnd⟩
    · have hres : (s.delete_item item_id).st = s := by
        simp [ItemStore.delete_item, hm]
      rw [hres]
      exact ⟨hid, hsm, hle, hnd⟩

/-- C6: in every store state reachable from a fresh store by the
operations as the HTTP layer invokes them (`add_item` with the fields
`summary` and `description`, `delete_item`, and the mutation-free
`find_item` / `all_items`), every stored record's `id` field equals the
key under which it is stored — so the key set and the live id set are
identical — and no two items share an id. -/
theorem spec_c6 (s : ItemStore) (h : Reach s) :
    (∀ kv ∈ s.items, dictGet kv.2 "id" = some (Value.int kv.1)) ∧
    (s.items.map Prod.fst).Nodup := by
  obtain ⟨hid, _, _, hnd⟩ := reach_wf h
  exact ⟨hid, hnd⟩

/-- Witness for C6 on the reachable store obtained by one `add_item`. -/
theorem spec_c6_witness :
    (((ItemStore.init.add_item [("summary", Value.str "a"),
        ("description", Value.str "b")]).st.items.map Prod.fst).Nodup) :=
  (spec_c6 _ (Reach.add ItemStore.init "a" "b" Reach.init)).2

/-- C7 counterexample: a `POST /items` whose body is missing the required
fields (here the empty JSON object, with no injected failure) raises an
uncaught `KeyError` in `create_item`, which the HTTP boundary surfaces as
status 500 — a server-side error, not a client-side 4xx. -/
theorem spec_c7_cex :
    (create_item 0 0 [] ItemStore.init).res = .error .keyError ∧
    http_status false (create_item 0 0 [] ItemStore.init).res = 500 ∧
    ¬ (400 ≤ http_status false (create_item 0 0 [] ItemStore.init).res ∧
      http_status false (create_item 0 0 [] ItemStore.init).res < 500) := by
  have h : (create_item 0 0 [] ItemStore.init).res = .error .keyError := by
    simp [create_item, unreliable]
    rfl
  refine ⟨h, by rw [h]; decide, by rw [h]; decide⟩

/-- C7 amended: when the decorator does not fire and the request body is
missing `summary` or `description`, `create_item` raises an uncaught
`KeyError`, the store is unchanged, and the HTTP boundary surfaces it as
a server-side 500 — the same 5xx class as SimulatedFailure — rather than
a client-side 4xx. -/
theorem spec_c7_amended (p r : ℚ) (params : PyDict) (s : ItemStore)
    (hnf : ¬ r < p)
    (hmiss : dictGet params "summary" = none ∨
      dictGet params "description" = none) :
    (create_item p r params s).res = .error .keyError ∧
    (create_item p r params s).st = s ∧
    http_status false (create_item p r params s).res = 500 := by
  have heq : create_item p r params s = ⟨.error .keyError, s, []⟩ := by
    rcases hmiss with hm | hm
    · simp [create_item, unreliable, hnf, hm]
    · cases hsm : dictGet params "summary" with
      | none => simp [create_item, unreliable, hnf, hsm]
      | some v => simp [create_item, unreliable, hnf, hsm, hm]
  exact ⟨by rw [heq], by rw [heq], by rw [heq]; rfl⟩

/-- Witness for C7's amended claim: a body carrying only `description`. -/
theorem spec_c7_witness :
    (create_item 0 0 [("description", Value.str "2%")]
      ItemStore.init).res = .error .keyError ∧
    (create_item 0 0 [("description", Value.str "2%")]
      ItemStore.init).st = ItemStore.init ∧
    http_status false (create_item 0 0 [("description", Value.str "2%")]
      ItemStore.init).res = 500 :=
  spec_c7_amended 0 0 [("description", Value.str "2%")] ItemStore.init
    (by norm_num) (Or.inl rfl)

/-- C8: the startup assertion in `get_args` passes exactly for failure
rates inside `[0,1]` (argument processing returns and startup proceeds),
and any rate outside `[0,1]` raises the fatal `AssertionError`, so the
process does not start. -/
theorem spec_c8 (f : ℚ) :
    (get_args f = .ok f ↔ (0 ≤ f ∧ f ≤ 1)) ∧
    ((f < 0 ∨ 1 < f) → get_args f = .error .assertionError) := by
  constructor
  · constructor
    · intro h
      by_contra hc
      simp [get_args, hc] at h
    · intro h
      simp [get_args, h]
  · intro h
    have hc : ¬ (0 ≤ f ∧ f ≤ 1) := by
      rcases h with h | h
      · rintro ⟨h1, _⟩
        linarith
      · rintro ⟨_, h2⟩
        linarith
    simp [get_args, hc]

/-- Witness for C8 at the out-of-range rate 2 and the in-range rate 1/2. -/
theorem spec_c8_witness :
    get_args 2 = .error .assertionError ∧ get_args (1/2) = .ok (1/2) :=
  ⟨(spec_c8 2).2 (Or.inr (by norm_num)),
   (spec_c8 (1/2)).1.2 ⟨by norm_num, by norm_num⟩⟩

/-- Ids handed out by interleaved `new_id` critical sections, starting
from counter `c`, are exactly the consecutive integers above `c`. -/
lemma runNewIds_ids (sched : List Nat) (c : Nat) (pending : List Nat) :
    (runNewIds c pending sched).2.map Prod.snd =
      List.range' (c + 1) ((runNewIds c pending sched).1 - c) ∧
    c ≤ (runNewIds c pending sched).1 := by
  induction sched generalizing c pending with
  | nil => simp [runNewIds]
  | cons t ts ih =>
    by_cases ht : t ∈ pending
    · obtain ⟨h1, h2⟩ := ih (c + 1) (pending.erase t)
      have hrun : runNewIds c pending (t :: ts) =
          ((runNewIds (c + 1) (pending.erase t) ts).1,
            (t, c + 1) :: (runNewIds (c + 1) (pending.erase t) ts).2) := by
        simp [runNewIds, ht]
      rw [hrun]
      refine ⟨?_, by simpa using Nat.le_of_succ_le h2⟩
      simp only [List.map_cons, h1]
      have hn : (runNewIds (c + 1) (pending.erase t) ts).1 - c =
          ((runNewIds (c + 1) (pending.erase t) ts).1 - (c + 1)) + 1 := by
        omega
      rw [hn, List.range'_succ]
    · have hrun : runNewIds c pending (t :: ts) = runNewIds c pending ts := by
        simp [runNewIds, ht]
      rw [hrun]
      exact ih c pending

/-- C9 counterexample: `delete_item` on a one-item store mutates the item
collection while acquiring no lock at all, so it is not the case that
every read and write of the collection is serialized through the store's
two locks. -/
theorem spec_c9_cex :
    ((⟨[(1, [("id", Value.int 1), ("summary", Value.str "a")])], 1⟩ :
        ItemStore).delete_item 1).st ≠
      (⟨[(1, [("id", Value.int 1), ("summary", Value.str "a")])], 1⟩ :
        ItemStore) ∧
    ((⟨[(1, [("id", Value.int 1), ("summary", Value.str "a")])], 1⟩ :
        ItemStore).delete_item 1).locks = [] := by
  decide

/-- C9 amended: ids allocated by concurrent `new_id` callers are pairwise
distinct under any interleaving, because the whole critical section runs
under `id_lock`; `add_item` serializes id allocation through `id_lock`
and record insertion through `write_lock`; but `delete_item`,
`find_item` and `all_items` access the item collection without acquiring
either lock, so not every read and write is serialized through them. -/
theorem spec_c9_amended (c : Nat) (pending sched : List Nat)
    (s : ItemStore) (kwargs : PyDict) (item_id : Nat) :
    ((runNewIds c pending sched).2.map Prod.snd).Nodup ∧
    (s.add_item kwargs).locks =
      [.acqId, .relId, .acqWrite, .relWrite] ∧
    (s.delete_item item_id).locks = [] ∧
    (s.find_item item_id).locks = [] ∧
    (s.all_items).locks = [] := by
  refine ⟨?_, ?_, ?_, ?_, rfl⟩
  · rw [(runNewIds_ids sched c pending).1]
    exact List.nodup_range' _ _
  · unfold ItemStore.add_item ItemStore.new_id
    by_cases hm : (s.items.lookup (s.current_id + 1)).isSome <;> simp [hm]
  · unfold ItemStore.delete_item
    split <;> rfl
  · unfold ItemStore.find_item
    split <;> rfl

/-- C10: at the public `add_item` interface, caller-supplied fields that
include the key `id` overwrite the freshly allocated id in the record:
here the record stored under the allocated key 1 (and returned to the
caller) carries the id field 99, different from its key. -/
theorem spec_c10 :
    (ItemStore.init.add_item
      [("id", Value.int 99), ("summary", Value.str "x")]).res =
      .ok [("id", Value.int 99), ("summary", Value.str "x")] ∧
    (ItemStore.init.add_item
      [("id", Value.int 99), ("summary", Value.str "x")]).st.items =
      [(1, [("id", Value.int 99), ("summary", Value.str "x")])] ∧
    dictGet [("id", Value.int 99), ("summary", Value.str "x")] "id" =
      some (Value.int 99) ∧
    (99 : Int) ≠ (1 : Int) := by
  decide

end TodoApi
